import Mathlib

/-!
Verification of the ozbargain-tracker scraper (`src/alert_on_new_posts.py`).

The script is a single-run batch job: it validates environment configuration,
crawls a paginated listing by following "Go to next page" links, deduplicates
discovered posts by link, diffs them against a persisted CSV of previously
seen links, rewrites the CSV with the current snapshot, and sends an alert
for the new posts.

The shallow embedding below models the script at the level of the data it
manipulates:

* HTML extraction (BeautifulSoup) is modelled at the extracted-anchor level:
  a `RawEntry` is one matched `dt.title a` anchor together with its
  best-effort date text (the `get_text`/sibling-walking chain itself is
  markup plumbing with no logic the claims touch).
* The network is modelled as the sequence of outcomes the site returns for
  the successive fetches the crawl performs (`List FetchResult`); a
  `RequestException` is `FetchResult.err`.
* The CSV state file is modelled as the list of its data rows; Python's
  `csv` module round-trips field strings exactly, so a row is a `Post`.
* `sys.exit(1)` at the pre-flight check is the `ProgramResult.configError`
  outcome, which by construction carries no fetches, no state change and no
  email, mirroring the fact that the script aborts before any side effect.
-/

/-- A scraped post: the dict `{"title": ..., "link": ..., "date": ...}`
built in `scrape_page` (all fields are strings; `link` is the identity). -/
structure Post where
  title : String
  link : String
  date : String
deriving DecidableEq, Repr

/-- One extracted listing anchor: its joined title text, its raw `href`
attribute, and the best-effort date text (empty when the sibling-row chain
found nothing). `href` is the value of `a.get("href") or ""`. -/
structure RawEntry where
  title : String
  href : String
  date : String
deriving DecidableEq, Repr

/-- The fixed site base URL (line 48 of the script). -/
def BASE_URL : String := "https://www.ozbargain.com.au"

/-- Python `str.startswith(pre)`: a character-level initial-segment test.
Defined over the underlying character list (rather than through
`String.startsWith`, whose byte-offset loop the kernel cannot reduce) so
that concrete instances evaluate by `decide`. -/
def startswith (s pre : String) : Bool :=
  pre.data.isPrefixOf s.data

/-- Python `str.strip()`: drop leading and trailing whitespace characters.
(Python also strips a few rarer whitespace code points than
`Char.isWhitespace` covers; no link in this development involves them.) -/
def py_strip (s : String) : String :=
  ⟨((s.data.dropWhile Char.isWhitespace).reverse.dropWhile Char.isWhitespace).reverse⟩

/-- Entry-link resolution (line 101): `BASE_URL + href if href.startswith("/")
else href`. -/
def resolve_link (href : String) : String :=
  if startswith href "/" then BASE_URL ++ href else href

/-- Processing of one matched anchor inside the `for a in search_result_links`
loop (lines 84-103): skip the entry when title or href is empty, resolve the
link, and append a new `Post` unless some accumulated post already carries
the same link (`if not any(p.get("link") == link_full for p in all_posts)`). -/
def processEntry (all_posts : List Post) (e : RawEntry) : List Post :=
  if e.href = "" ∨ e.title = "" then all_posts
  else
    let link_full := resolve_link e.href
    if all_posts.any (fun p => decide (p.link = link_full)) then all_posts
    else all_posts ++ [⟨e.title, link_full, e.date⟩]

/-- What one HTTP fetch of a listing page yields: either the page's extracted
anchors together with the raw `href` of the "Go to next page" anchor when one
is present, or a `requests.RequestException` (network error, timeout, or the
non-success status raised by `raise_for_status`). -/
inductive FetchResult where
  | ok (entries : List RawEntry) (nextHref : Option String)
  | err
deriving DecidableEq, Repr

/-- The recursive crawl `scrape_page(url, all_posts)` (lines 57-125).
`outcomes` is the sequence of results the site returns for the successive
fetches; the function returns the accumulated posts together with the list
of URLs actually fetched, in fetch order.  An exhausted outcome list is
read as a failed fetch (the site model stops answering).  On success the
page's entries are merged via `processEntry`; when a next-page anchor is
present the crawl recurses on `BASE_URL + next_relative_url` (line 113,
with no absoluteness check); on `err` the accumulator is returned as-is
(line 125). -/
def scrape_page : List FetchResult → String → List Post → List Post × List String
  | [], url, all_posts => (all_posts, [url])
  | FetchResult.err :: _, url, all_posts => (all_posts, [url])
  | FetchResult.ok entries nextHref :: rest, url, all_posts =>
    match nextHref with
    | none => (entries.foldl processEntry all_posts, [url])
    | some href =>
      let r := scrape_page rest (BASE_URL ++ href) (entries.foldl processEntry all_posts)
      (r.1, url :: r.2)

/-- `scrape_all_pages(start_url)` (lines 129-131): run the crawl from an
empty accumulator. -/
def scrape_all_pages (start_url : String) (outcomes : List FetchResult) :
    List Post × List String :=
  scrape_page outcomes start_url []

/-- One iteration of the read loop of `load_last_posts()` (lines 144-148):
strip the row's `link` column value of surrounding whitespace and add it to
the seen set when the stripped value is non-empty.  The set is modelled as
a duplicate-free list; membership is its interface. -/
def load_step (seen_links : List String) (row : Post) : List String :=
  let link_value := py_strip row.link
  if link_value ≠ "" then
    if link_value ∈ seen_links then seen_links else seen_links ++ [link_value]
  else seen_links

/-- `load_last_posts()` (lines 137-151) applied to the parsed data rows of
the state file: collect the set of previously seen post links. -/
def load_last_posts (rows : List Post) : List String :=
  rows.foldl load_step []

/-- `save_current_posts(posts)` (lines 154-171): the data rows written to the
state file, one per post, fields `title, link, date` (the header row is
implicit in the row model). -/
def save_current_posts (posts : List Post) : List Post :=
  posts.map (fun post => ⟨post.title, post.link, post.date⟩)

/-- `check_for_new_posts(current_posts, last_post_links)` (lines 174-176):
keep the posts whose link is not in the seen set. -/
def check_for_new_posts (current_posts : List Post) (last_post_links : List String) :
    List Post :=
  current_posts.filter (fun post => decide (post.link ∉ last_post_links))

/-- Observable outcome of the `__main__` block: the URLs fetched, whether the
state file was read, its contents after the run, and the posts included in
the alert email when one was sent.  The script always falls off the end of
`__main__` normally, hence `exitCode = 0` on every completed run. -/
structure RunResult where
  fetchedUrls : List String
  stateRead : Bool
  finalState : List Post
  emailSent : Option (List Post)
  exitCode : Nat
deriving DecidableEq, Repr

/-- The `else` branch of `__main__` (lines 227-236): load the seen links,
diff, overwrite the state file with the full current snapshot, and send the
alert exactly when the diff is non-empty. -/
def run_with_posts (current_posts : List Post) (crawlUrls : List String)
    (prior : List Post) : RunResult :=
  let last_post_links := load_last_posts prior
  let new_posts := check_for_new_posts current_posts last_post_links
  { fetchedUrls := crawlUrls
    stateRead := true
    finalState := save_current_posts current_posts
    emailSent := if new_posts = [] then none else some new_posts
    exitCode := 0 }

/-- The `__main__` block (lines 216-236): crawl from the configured URL; when
no posts were found (`if not current_posts`) print and exit without touching
the state file or sending anything; otherwise run the diff-save-notify
pipeline. -/
def main_run (outcomes : List FetchResult) (seed : String) (prior : List Post) :
    RunResult :=
  let crawl := scrape_page outcomes seed []
  let current_posts := crawl.1
  if current_posts = [] then
    { fetchedUrls := crawl.2
      stateRead := false
      finalState := prior
      emailSent := none
      exitCode := 0 }
  else run_with_posts current_posts crawl.2 prior

/-- The required environment variables (lines 15-22). -/
def required_vars : List String :=
  ["URL", "LAST_POSTS_FILE", "SENDER_EMAIL", "RECIPIENT_EMAIL", "TITLE",
   "RESEND_API_KEY"]

/-- An environment, as an association list of set variables.  `envGet env k`
is `os.environ.get(k)` collapsed along Python truthiness: an absent variable
(`None`) and an empty string are both falsy at line 26, so both are modelled
as `""`. -/
def envGet (env : List (String × String)) (k : String) : String :=
  (((env.find? (fun kv => decide (kv.1 = k))).map Prod.snd).getD "")

/-- The `missing_vars` list built by `check_environment_vars` (lines 23-27):
every required variable that is unset or empty, in declaration order. -/
def missing_vars (env : List (String × String)) : List String :=
  required_vars.filter (fun v => decide (envGet env v = ""))

/-- Outcome of one process invocation: either the pre-flight abort of
`check_environment_vars` (line 36, `sys.exit(1)` after printing the missing
list, before any fetch, state access or email), or a completed run. -/
inductive ProgramResult where
  | configError (missing : List String)
  | completed (r : RunResult)
deriving DecidableEq, Repr

/-- The whole script: `check_environment_vars()` runs first (line 40); if it
passes, `__main__` runs with the configured `URL` as the seed. -/
def program_run (env : List (String × String)) (outcomes : List FetchResult)
    (prior : List Post) : ProgramResult :=
  if missing_vars env = [] then
    ProgramResult.completed (main_run outcomes (envGet env "URL") prior)
  else ProgramResult.configError (missing_vars env)

/-- Process exit status: 1 at the pre-flight abort, 0 on every completed run. -/
def exit_code : ProgramResult → Nat
  | ProgramResult.configError _ => 1
  | ProgramResult.completed r => r.exitCode

/-- A well-formed pagination chain segment: each page is its extracted
entries together with the raw href of its "Go to next page" anchor, all
fetched successfully. -/
def okChain (body : List (List RawEntry × String)) : List FetchResult :=
  body.map (fun b => FetchResult.ok b.1 (some b.2))

/-- The URLs at which the pages of a chain segment are fetched, starting
from `seed`: each page's successor is fetched at `BASE_URL ++ href`. -/
def chainUrls : List (List RawEntry × String) → String → List String
  | [], _ => []
  | b :: rest, seed => seed :: chainUrls rest (BASE_URL ++ b.2)

/-- The URL the crawl holds after consuming a chain segment started at
`seed`. -/
def chainNext : List (List RawEntry × String) → String → String
  | [], seed => seed
  | b :: rest, _ => chainNext rest (BASE_URL ++ b.2)

/-- The accumulator after merging a chain segment's pages in order. -/
def chainAcc : List (List RawEntry × String) → List Post → List Post
  | [], acc => acc
  | b :: rest, acc => chainAcc rest (b.1.foldl processEntry acc)

/-! ## Supporting lemmas -/

theorem save_current_posts_eq (posts : List Post) : save_current_posts posts = posts := by
  induction posts with
  | nil => rfl
  | cons p rest ih =>
    cases p
    simp [save_current_posts] at ih ⊢

/-! ## Claims -/

/-- C1: `check_for_new_posts(C, S)` returns exactly the records of `C` whose
link is not in `S`, in the same relative order (stated as: the result is a
sublist of `C`, and membership is characterized by `link ∉ S`); moreover
`diff(C, ∅) = C` and `diff(C, {all links in C}) = []`. -/
theorem C1_delta_correctness : ∀ (C : List Post) (S : List String),
    (check_for_new_posts C S).Sublist C
    ∧ (∀ p, p ∈ check_for_new_posts C S ↔ p ∈ C ∧ p.link ∉ S)
    ∧ check_for_new_posts C [] = C
    ∧ check_for_new_posts C (C.map Post.link) = [] := by
  intro C S
  refine ⟨List.filter_sublist _, ?_, ?_, ?_⟩
  · intro p
    simp [check_for_new_posts]
  · simp [check_for_new_posts]
  · rw [check_for_new_posts, List.filter_eq_nil_iff]
    intro p hp
    simpa using List.mem_map_of_mem Post.link hp

theorem processEntry_skip (acc : List Post) (e : RawEntry)
    (h : e.href = "" ∨ e.title = "") : processEntry acc e = acc := by
  simp [processEntry, h]

theorem processEntry_dup (acc : List Post) (e : RawEntry)
    (h1 : ¬(e.href = "" ∨ e.title = ""))
    (h2 : acc.any (fun p => decide (p.link = resolve_link e.href)) = true) :
    processEntry acc e = acc := by
  simp [processEntry, h1, h2]

theorem processEntry_new (acc : List Post) (e : RawEntry)
    (h1 : ¬(e.href = "" ∨ e.title = ""))
    (h2 : acc.any (fun p => decide (p.link = resolve_link e.href)) = false) :
    processEntry acc e = acc ++ [⟨e.title, resolve_link e.href, e.date⟩] := by
  simp [processEntry, h1, h2]

theorem processEntry_eq_or_append (acc : List Post) (e : RawEntry) :
    processEntry acc e = acc
    ∨ processEntry acc e = acc ++ [⟨e.title, resolve_link e.href, e.date⟩] := by
  by_cases h1 : e.href = "" ∨ e.title = ""
  · exact Or.inl (processEntry_skip acc e h1)
  · cases h2 : acc.any (fun p => decide (p.link = resolve_link e.href)) with
    | true => exact Or.inl (processEntry_dup acc e h1 h2)
    | false => exact Or.inr (processEntry_new acc e h1 h2)

theorem processEntry_nodup (acc : List Post) (e : RawEntry)
    (h : (acc.map Post.link).Nodup) : ((processEntry acc e).map Post.link).Nodup := by
  rcases processEntry_eq_or_append acc e with heq | heq
  · rw [heq]; exact h
  · by_cases h1 : e.href = "" ∨ e.title = ""
    · rw [processEntry_skip acc e h1]; exact h
    · cases h2 : acc.any (fun p => decide (p.link = resolve_link e.href)) with
      | true => rw [processEntry_dup acc e h1 h2]; exact h
      | false =>
        rw [processEntry_new acc e h1 h2]
        simp only [List.any_eq_false, decide_eq_true_eq] at h2
        simp only [List.map_append, List.map_cons, List.map_nil]
        rw [List.nodup_append]
        refine ⟨h, List.nodup_singleton _, ?_⟩
        intro l hl
        simp only [List.mem_map] at hl
        obtain ⟨p, hp, rfl⟩ := hl
        simp only [List.mem_singleton]
        exact fun hc => h2 p hp hc

theorem foldl_processEntry_nodup (es : List RawEntry) : ∀ acc : List Post,
    (acc.map Post.link).Nodup → ((es.foldl processEntry acc).map Post.link).Nodup := by
  induction es with
  | nil => intro acc h; exact h
  | cons e rest ih =>
    intro acc h
    exact ih (processEntry acc e) (processEntry_nodup acc e h)

theorem scrape_page_nodup (outs : List FetchResult) : ∀ (url : String) (acc : List Post),
    (acc.map Post.link).Nodup → (((scrape_page outs url acc).1).map Post.link).Nodup := by
  induction outs with
  | nil =>
    intro url acc h
    simpa [scrape_page] using h
  | cons o rest ih =>
    intro url acc h
    cases o with
    | err => simpa [scrape_page] using h
    | ok entries nextHref =>
      cases nextHref with
      | none =>
        simpa [scrape_page] using foldl_processEntry_nodup entries acc h
      | some href =>
        simpa [scrape_page] using
          ih (BASE_URL ++ href) (entries.foldl processEntry acc)
            (foldl_processEntry_nodup entries acc h)

/-- C2: the accumulator is link-distinct at every point of a crawl — the full
crawl result has pairwise-distinct links, each merge step preserves
link-distinctness, an incoming entry whose resolved link already occurs in
the accumulator leaves the accumulator unchanged (dropped, not merged — so
the first occurrence's title and date survive), and a merge step only ever
appends (existing records are never modified). -/
theorem C2_dedup_by_link :
    (∀ (outs : List FetchResult) (url : String),
      (((scrape_page outs url []).1).map Post.link).Nodup)
    ∧ (∀ (acc : List Post) (e : RawEntry),
      ((acc.map Post.link).Nodup → ((processEntry acc e).map Post.link).Nodup)
      ∧ (acc.any (fun p => decide (p.link = resolve_link e.href)) = true →
          processEntry acc e = acc)
      ∧ ∃ t, processEntry acc e = acc ++ t) := by
  constructor
  · intro outs url
    exact scrape_page_nodup outs url [] (by simp)
  · intro acc e
    refine ⟨processEntry_nodup acc e, ?_, ?_⟩
    · intro h2
      by_cases h1 : e.href = "" ∨ e.title = ""
      · exact processEntry_skip acc e h1
      · exact processEntry_dup acc e h1 h2
    · rcases processEntry_eq_or_append acc e with heq | heq
      · exact ⟨[], by simpa using heq⟩
      · exact ⟨[⟨e.title, resolve_link e.href, e.date⟩], heq⟩

theorem okChain_cons (b : List RawEntry × String) (rest : List (List RawEntry × String)) :
    okChain (b :: rest) = FetchResult.ok b.1 (some b.2) :: okChain rest := rfl

theorem scrape_page_okChain (body : List (List RawEntry × String)) :
    ∀ (tail : List FetchResult) (seed : String) (acc : List Post),
    scrape_page (okChain body ++ tail) seed acc =
      ((scrape_page tail (chainNext body seed) (chainAcc body acc)).1,
       chainUrls body seed ++ (scrape_page tail (chainNext body seed) (chainAcc body acc)).2) := by
  induction body with
  | nil =>
    intro tail seed acc
    simp [okChain, chainNext, chainAcc, chainUrls]
  | cons b rest ih =>
    intro tail seed acc
    obtain ⟨es, h⟩ := b
    rw [okChain_cons, List.cons_append]
    simp only [scrape_page]
    rw [ih]
    simp only [chainNext, chainAcc, chainUrls, List.cons_append]

theorem chainAcc_eq (body : List (List RawEntry × String)) : ∀ acc : List Post,
    chainAcc body acc = ((body.map Prod.fst).flatten).foldl processEntry acc := by
  induction body with
  | nil => intro acc; simp [chainAcc]
  | cons b rest ih =>
    intro acc
    simp [chainAcc, ih, List.foldl_append]

theorem chainUrls_length (body : List (List RawEntry × String)) : ∀ seed : String,
    (chainUrls body seed).length = body.length := by
  induction body with
  | nil => intro seed; simp [chainUrls]
  | cons b rest ih => intro seed; simp [chainUrls, ih]

/-- C5: on a well-formed finite chain (every page but the last exposes a
next-page href, the last exposes none), the crawl terminates with exactly one
fetch per page of the chain, at the chain's URLs in order, with no fetch
after the last page, and returns the dedup-merge (via `processEntry`) of all
pages' entries in page order then within-page order. -/
theorem C5_pagination_termination (body : List (List RawEntry × String))
    (lastEntries : List RawEntry) (seed : String) :
    scrape_page (okChain body ++ [FetchResult.ok lastEntries none]) seed [] =
      (((body.map Prod.fst).flatten ++ lastEntries).foldl processEntry [],
       chainUrls body seed ++ [chainNext body seed])
    ∧ (chainUrls body seed ++ [chainNext body seed]).length = body.length + 1 := by
  constructor
  · rw [scrape_page_okChain]
    simp [scrape_page, chainAcc_eq, List.foldl_append]
  · simp [chainUrls_length]

/-- C4 (amended): when fetching page N fails after pages 1..N-1 succeeded
with next-page links, the crawl stops at once — each of pages 1..N is
fetched exactly once, nothing after — and returns exactly the dedup-merge
of pages 1..N-1's entries; and whenever that partial collection is
non-empty, `__main__` runs the full downstream pipeline on it (the delta is
evaluated against it and it is persisted, per `run_with_posts`).  The
original claim's unconditional downstream clause fails when the partial
collection is empty (see the counterexample). -/
theorem C4_partial_failure_preserved (body : List (List RawEntry × String))
    (rest : List FetchResult) (seed : String) (prior : List Post) :
    scrape_page (okChain body ++ FetchResult.err :: rest) seed [] =
      (((body.map Prod.fst).flatten).foldl processEntry [],
       chainUrls body seed ++ [chainNext body seed])
    ∧ (chainUrls body seed ++ [chainNext body seed]).length = body.length + 1
    ∧ ((scrape_page (okChain body ++ FetchResult.err :: rest) seed []).1 ≠ [] →
        main_run (okChain body ++ FetchResult.err :: rest) seed prior =
          run_with_posts
            (scrape_page (okChain body ++ FetchResult.err :: rest) seed []).1
            (scrape_page (okChain body ++ FetchResult.err :: rest) seed []).2 prior) := by
  refine ⟨?_, by simp [chainUrls_length], ?_⟩
  · rw [scrape_page_okChain]
    simp [scrape_page, chainAcc_eq]
  · intro h
    simp only [main_run]
    rw [if_neg h]

/-- C4, counterexample to the claim as stated: when page 1 itself fails, the
partial collection is empty, and the `if not current_posts` guard of
`__main__` skips the downstream pipeline — the delta is never evaluated
(`stateRead = false`) and the partial result is not persisted (the state
file keeps its prior contents instead of the empty snapshot). -/
theorem C4_counterexample :
    (scrape_page [FetchResult.err] "https://seed" []).1 = []
    ∧ (main_run [FetchResult.err] "https://seed"
        [⟨"old", "https://www.ozbargain.com.au/node/1", ""⟩]).stateRead = false
    ∧ (main_run [FetchResult.err] "https://seed"
        [⟨"old", "https://www.ozbargain.com.au/node/1", ""⟩]).finalState ≠
        save_current_posts (scrape_page [FetchResult.err] "https://seed" []).1 := by
  decide

theorem scrape_page_urls_head (outs : List FetchResult) (url : String) (acc : List Post) :
    ((scrape_page outs url acc).2)[0]? = some url := by
  match outs with
  | [] => simp [scrape_page]
  | FetchResult.err :: rest => simp [scrape_page]
  | FetchResult.ok entries none :: rest => simp [scrape_page]
  | FetchResult.ok entries (some href) :: rest => simp [scrape_page]

/-- C9: whenever a page exposes a next-page anchor, the URL fetched next is
the fixed `BASE_URL` concatenated with the anchor's raw href, with no check
that the href might already be absolute — an absolute next-page href yields
the malformed URL `BASE_URL ++ href`, as the concrete conjunct shows. -/
theorem C9_next_url_unconditional :
    (∀ (entries : List RawEntry) (href url : String) (rest : List FetchResult)
        (acc : List Post),
      ((scrape_page (FetchResult.ok entries (some href) :: rest) url acc).2)[1]? =
        some (BASE_URL ++ href))
    ∧ startswith "https://external.example/x" "/" = false
    ∧ (scrape_page
        [FetchResult.ok [] (some "https://external.example/x"), FetchResult.err]
        "https://seed0" []).2 =
      ["https://seed0", "https://www.ozbargain.com.auhttps://external.example/x"] := by
  refine ⟨?_, by decide, by decide⟩
  intro entries href url rest acc
  simp only [scrape_page, List.getElem?_cons_succ]
  exact scrape_page_urls_head rest (BASE_URL ++ href) (entries.foldl processEntry acc)

/-- C3 (amended): after every successful run whose crawl produced a
non-empty collection, the persisted state equals the full current-run
collection — prior records absent from the current listing are not
retained, and the overwrite happens regardless of whether the delta was
empty.  The original claim's inclusion of the empty collection fails:
`__main__` skips the save when the crawl returns nothing (see the
counterexample). -/
theorem C3_snapshot_persistence (outs : List FetchResult) (seed : String)
    (prior : List Post) (h : (scrape_page outs seed []).1 ≠ []) :
    (main_run outs seed prior).finalState = (scrape_page outs seed []).1
    ∧ (main_run outs seed prior).stateRead = true := by
  simp only [main_run]
  rw [if_neg h]
  simp [run_with_posts, save_current_posts_eq]

/-- C3, witness: a one-page crawl whose single post was already seen (the
delta is empty) still overwrites the state, dropping the stale prior row. -/
theorem C3_witness :
    (main_run [FetchResult.ok [⟨"Deal", "/node/1", "today"⟩] none] "https://seed"
        [⟨"Deal", "https://www.ozbargain.com.au/node/1", "today"⟩,
         ⟨"stale", "https://www.ozbargain.com.au/node/9", ""⟩]).finalState =
      (scrape_page [FetchResult.ok [⟨"Deal", "/node/1", "today"⟩] none]
        "https://seed" []).1
    ∧ (main_run [FetchResult.ok [⟨"Deal", "/node/1", "today"⟩] none] "https://seed"
        [⟨"Deal", "https://www.ozbargain.com.au/node/1", "today"⟩,
         ⟨"stale", "https://www.ozbargain.com.au/node/9", ""⟩]).stateRead = true :=
  C3_snapshot_persistence _ _ _ (by decide)

/-- C3, counterexample to the claim as stated: a run whose crawl returns the
empty collection still exits successfully, yet the state file keeps its
prior contents instead of being overwritten with the (empty) current
collection. -/
theorem C3_counterexample :
    (main_run [FetchResult.err] "https://seed1"
        [⟨"stale", "https://www.ozbargain.com.au/node/9", ""⟩]).finalState ≠
      (scrape_page [FetchResult.err] "https://seed1" []).1 := by
  decide

/-- C10: when the crawl returns an empty collection, `__main__` skips the
whole downstream pipeline — the state file is not read and keeps its prior
contents, no delta is computed, no notification is dispatched — and the
process still completes with exit status 0. -/
theorem C10_empty_crawl_skips_pipeline (outs : List FetchResult) (seed : String)
    (prior : List Post) (h : (scrape_page outs seed []).1 = []) :
    main_run outs seed prior =
      { fetchedUrls := (scrape_page outs seed []).2
        stateRead := false
        finalState := prior
        emailSent := none
        exitCode := 0 } := by
  simp only [main_run]
  rw [if_pos h]

/-- C10, witness: a failed first fetch yields the empty collection; the run
leaves the prior state untouched, sends nothing, and exits 0. -/
theorem C10_witness :
    main_run [FetchResult.err] "https://seed2"
        [⟨"old", "https://www.ozbargain.com.au/node/3", ""⟩] =
      { fetchedUrls := (scrape_page [FetchResult.err] "https://seed2" []).2
        stateRead := false
        finalState := [⟨"old", "https://www.ozbargain.com.au/node/3", ""⟩]
        emailSent := none
        exitCode := 0 } :=
  C10_empty_crawl_skips_pipeline _ _ _ (by decide)

theorem main_run_exitCode (outs : List FetchResult) (seed : String) (prior : List Post) :
    (main_run outs seed prior).exitCode = 0 := by
  by_cases hc : (scrape_page outs seed []).1 = []
  · simp [main_run, hc]
  · simp [main_run, hc, run_with_posts]

/-- C8: the pre-flight check — whenever at least one required configuration
key (listing URL, state-file path, sender, recipient, campaign title,
transport credential) is unset or empty, the process stops at
`check_environment_vars` with exit status 1, reporting the full list of
missing keys; the `configError` outcome carries no fetch, state access or
notification, mirroring the abort before any side effect.  When all keys
are present the pre-flight check does not exit and the run proceeds. -/
theorem C8_preflight_config_check (env : List (String × String))
    (outs : List FetchResult) (prior : List Post) :
    (missing_vars env ≠ [] →
      program_run env outs prior = ProgramResult.configError (missing_vars env)
      ∧ exit_code (program_run env outs prior) = 1)
    ∧ (missing_vars env = [] →
      program_run env outs prior =
        ProgramResult.completed (main_run outs (envGet env "URL") prior)
      ∧ exit_code (program_run env outs prior) = 0)
    ∧ (missing_vars env ≠ [] ↔ ∃ v ∈ required_vars, envGet env v = "") := by
  refine ⟨?_, ?_, ?_⟩
  · intro h
    simp [program_run, h, exit_code]
  · intro h
    simp [program_run, h, exit_code, main_run_exitCode]
  · rw [Ne, missing_vars, List.filter_eq_nil_iff]
    push_neg
    simp

/-- C7: link resolution for a usable extracted entry (non-empty title and
href) whose resolved link is not yet accumulated — the appended record's
link is `BASE_URL ++ href` when the raw href starts with `/` and the raw
href unchanged otherwise; concretely `/deals/123` resolves to
`https://www.ozbargain.com.au/deals/123` and an absolute external href is
left as-is. -/
theorem C7_link_resolution (e : RawEntry) (acc : List Post)
    (h1 : ¬(e.href = "" ∨ e.title = ""))
    (h2 : acc.any (fun p => decide (p.link = resolve_link e.href)) = false) :
    processEntry acc e = acc ++ [⟨e.title, resolve_link e.href, e.date⟩]
    ∧ (startswith e.href "/" = true → resolve_link e.href = BASE_URL ++ e.href)
    ∧ (startswith e.href "/" = false → resolve_link e.href = e.href)
    ∧ resolve_link "/deals/123" = "https://www.ozbargain.com.au/deals/123"
    ∧ resolve_link "https://external.example/x" = "https://external.example/x" := by
  refine ⟨processEntry_new acc e h1 h2, ?_, ?_, by decide, by decide⟩
  · intro h
    simp [resolve_link, h]
  · intro h
    simp [resolve_link, h]

/-- C7, witness at a relative href appended to an empty accumulator. -/
theorem C7_witness :
    processEntry [] ⟨"Deal", "/deals/123", ""⟩ =
      [] ++ [⟨"Deal", resolve_link "/deals/123", ""⟩]
    ∧ (startswith "/deals/123" "/" = true →
        resolve_link "/deals/123" = BASE_URL ++ "/deals/123")
    ∧ (startswith "/deals/123" "/" = false →
        resolve_link "/deals/123" = "/deals/123")
    ∧ resolve_link "/deals/123" = "https://www.ozbargain.com.au/deals/123"
    ∧ resolve_link "https://external.example/x" = "https://external.example/x" :=
  C7_link_resolution ⟨"Deal", "/deals/123", ""⟩ [] (by decide) (by decide)

theorem mem_load_step (seen : List String) (row : Post) (l : String) :
    l ∈ load_step seen row ↔
      l ∈ seen ∨ (py_strip row.link ≠ "" ∧ l = py_strip row.link) := by
  unfold load_step
  by_cases hne : py_strip row.link ≠ ""
  · rw [if_pos hne]
    by_cases hmem : py_strip row.link ∈ seen
    · rw [if_pos hmem]
      constructor
      · exact fun h => Or.inl h
      · rintro (h | ⟨-, rfl⟩)
        · exact h
        · exact hmem
    · rw [if_neg hmem]
      simp only [List.mem_append, List.mem_singleton]
      constructor
      · rintro (h | rfl)
        · exact Or.inl h
        · exact Or.inr ⟨hne, rfl⟩
      · rintro (h | ⟨-, rfl⟩)
        · exact Or.inl h
        · exact Or.inr rfl
  · rw [if_neg hne]
    push_neg at hne
    simp [hne]

theorem mem_load_foldl (rows : List Post) : ∀ (seen : List String) (l : String),
    l ∈ rows.foldl load_step seen ↔
      l ∈ seen ∨ ∃ p ∈ rows, py_strip p.link ≠ "" ∧ l = py_strip p.link := by
  induction rows with
  | nil => simp
  | cons r rest ih =>
    intro seen l
    rw [List.foldl_cons, ih, mem_load_step]
    constructor
    · rintro ((h | h) | h)
      · exact Or.inl h
      · exact Or.inr ⟨r, by simp, h.1, h.2⟩
      · rcases h with ⟨p, hp, h⟩
        exact Or.inr ⟨p, by simp [hp], h⟩
    · rintro (h | ⟨p, hp, h⟩)
      · exact Or.inl (Or.inl h)
      · rcases List.mem_cons.mp hp with rfl | hp
        · exact Or.inl (Or.inr h)
        · exact Or.inr ⟨p, hp, h⟩

/-- C6 (amended): for every collection whose links are non-empty and free of
surrounding whitespace, a save-then-load round trip returns exactly the set
of link values occurring in the collection, and hence the delta of the
unchanged collection against it is empty (a second run against an unchanged
listing finds nothing new).  The unrestricted claim fails because
`load_last_posts` strips whitespace and skips empty links (see the
counterexample). -/
theorem C6_save_load_roundtrip (C : List Post)
    (h : ∀ p ∈ C, p.link ≠ "" ∧ py_strip p.link = p.link) :
    (∀ l, l ∈ load_last_posts (save_current_posts C) ↔ l ∈ C.map Post.link)
    ∧ check_for_new_posts C (load_last_posts (save_current_posts C)) = [] := by
  have key : ∀ l, l ∈ load_last_posts (save_current_posts C) ↔ l ∈ C.map Post.link := by
    intro l
    rw [save_current_posts_eq, load_last_posts, mem_load_foldl]
    simp only [List.not_mem_nil, false_or]
    constructor
    · rintro ⟨p, hp, -, rfl⟩
      rw [(h p hp).2]
      exact List.mem_map_of_mem _ hp
    · intro hl
      rcases List.mem_map.mp hl with ⟨p, hp, rfl⟩
      exact ⟨p, hp, by rw [(h p hp).2]; exact (h p hp).1, ((h p hp).2).symm⟩
  refine ⟨key, ?_⟩
  rw [check_for_new_posts, List.filter_eq_nil_iff]
  intro p hp
  have hmem : p.link ∈ load_last_posts (save_current_posts C) :=
    (key p.link).mpr (List.mem_map_of_mem _ hp)
  simp [hmem]

/-- C6, witness at a two-record collection with clean absolute links. -/
theorem C6_witness :
    (∀ l, l ∈ load_last_posts (save_current_posts
        [⟨"A", "https://www.ozbargain.com.au/node/1", "today"⟩,
         ⟨"B", "https://www.ozbargain.com.au/node/2", ""⟩]) ↔
      l ∈ List.map Post.link
        [⟨"A", "https://www.ozbargain.com.au/node/1", "today"⟩,
         ⟨"B", "https://www.ozbargain.com.au/node/2", ""⟩])
    ∧ check_for_new_posts
        [⟨"A", "https://www.ozbargain.com.au/node/1", "today"⟩,
         ⟨"B", "https://www.ozbargain.com.au/node/2", ""⟩]
        (load_last_posts (save_current_posts
          [⟨"A", "https://www.ozbargain.com.au/node/1", "today"⟩,
           ⟨"B", "https://www.ozbargain.com.au/node/2", ""⟩])) = [] :=
  C6_save_load_roundtrip _ (by decide)

/-- C6, counterexample to the claim as stated: a record whose link carries a
leading space round-trips to the stripped link, so the loaded seen set is
not the set of links of `C` and the second-run delta is not empty. -/
theorem C6_counterexample :
    " https://x/a" ∈ List.map Post.link [⟨"t", " https://x/a", ""⟩]
    ∧ " https://x/a" ∉ load_last_posts (save_current_posts [⟨"t", " https://x/a", ""⟩])
    ∧ check_for_new_posts [⟨"t", " https://x/a", ""⟩]
        (load_last_posts (save_current_posts [⟨"t", " https://x/a", ""⟩])) ≠ [] := by
  decide
